import Mathlib

/-!
Shallow embedding of the go-envsync provider registry
(`pkg/providers/registry`) and client load engine (`pkg/client`).
Go maps are modelled as association lists over `String` keys; Go's
`(value, error)` multiple returns are modelled as explicit pairs or
`Except`; the mutex fields are dropped (single-threaded semantics).
-/

/-- First-match association-list lookup, modelling Go `m[k]` reads. -/
def alookup {α : Type} : List (String × α) → String → Option α
  | [], _ => none
  | (k, v) :: rest, key => if k = key then some v else alookup rest key

/-- Association-list update-or-append, modelling Go `m[k] = v`. -/
def ainsert {α : Type} : List (String × α) → String → α → List (String × α)
  | [], key, val => [(key, val)]
  | (k, v) :: rest, key, val =>
      if k = key then (key, val) :: rest else (k, v) :: ainsert rest key val

/-- Association-list key removal, modelling Go `delete(m, k)`. -/
def aremove {α : Type} (m : List (String × α)) (key : String) : List (String × α) :=
  m.filter (fun p => ! (p.1 == key))

theorem alookup_ainsert {α : Type} (m : List (String × α)) (k k2 : String) (v : α) :
    alookup (ainsert m k v) k2 = if k = k2 then some v else alookup m k2 := by
  induction m with
  | nil => simp [ainsert, alookup]
  | cons p rest ih =>
      obtain ⟨a, b⟩ := p
      by_cases hak : a = k
      · subst hak
        by_cases hk2 : a = k2 <;> simp [ainsert, alookup, hk2]
      · by_cases hk2 : a = k2
        · subst hk2
          have hk : ¬ k = a := fun h => hak h.symm
          simp [ainsert, alookup, hak, hk, ih]
        · simp [ainsert, alookup, hak, hk2, ih]

/-- Go `strings.TrimSpace`, modelled structurally over the character
list (leading and trailing whitespace removed). -/
def trimSpace (s : String) : String :=
  String.mk (((s.data.dropWhile Char.isWhitespace).reverse.dropWhile Char.isWhitespace).reverse)

theorem alookup_ainsert_none {α : Type} {m : List (String × α)} {k k2 : String} {v : α}
    (h : alookup (ainsert m k v) k2 = none) : alookup m k2 = none := by
  rw [alookup_ainsert] at h
  by_cases hk : k = k2
  · simp [hk] at h
  · simpa [hk] using h

namespace registry

/-- Maximum number of providers that can be registered (Go `MaxProviders`). -/
def MaxProviders : Nat := 100

/-- Default priority assigned when `Priority` is zero (Go `DefaultProviderPriority`). -/
def DefaultProviderPriority : Int := 50

/-- Go `ProviderInfo`; the factory is `nil`-able, `ν` stands for Go's
`interface{}` config values and `π` for the opaque `client.Provider`
instances a factory produces. -/
structure ProviderInfo (ν π : Type) where
  Name : String
  Aliases : List String
  Factory : Option (List (String × ν) → Except String π)
  Priority : Int
  Description : String
  SupportedSources : List String
  RequiredConfig : List String
  OptionalConfig : List String

/-- Go `Registry`: `providers` is the `name -> *ProviderInfo` map,
`aliases` the `alias -> name` map (mutex dropped). -/
structure Registry (ν π : Type) where
  providers : List (String × ProviderInfo ν π)
  aliases : List (String × String)

/-- Go `NewRegistry`. -/
def NewRegistry (ν π : Type) : Registry ν π := { providers := [], aliases := [] }

/-- The alias-registration loop at the end of Go `Registry.Register`:
trims each alias, errors on a collision with a provider name or an
existing alias, otherwise inserts `alias -> name`.  On error the state
mutated so far is kept, exactly as the Go code returns mid-loop. -/
def registerAliases {ν π : Type} (st : Registry ν π) (name : String) :
    List String → Registry ν π × Option String
  | [] => (st, none)
  | a :: rest =>
      let al := trimSpace a
      if al = "" then registerAliases st name rest
      else if (alookup st.providers al).isSome then
        (st, some ("alias " ++ al ++ " conflicts with existing provider"))
      else if (alookup st.aliases al).isSome then
        (st, some ("alias " ++ al ++ " already registered"))
      else
        registerAliases { st with aliases := ainsert st.aliases al name } name rest

/-- The provider info as stored by `Register`: a zero priority is
replaced by the default (the Go code mutates `info.Priority`). -/
def storedInfo {ν π : Type} (i : ProviderInfo ν π) : ProviderInfo ν π :=
  if i.Priority = 0 then { i with Priority := DefaultProviderPriority } else i

/-- Go `Registry.Register`.  The `Option` argument models the `nil`
pointer check; the result pairs the (possibly partially mutated)
registry with the returned error. -/
def Register {ν π : Type} (r : Registry ν π) (info : Option (ProviderInfo ν π)) :
    Registry ν π × Option String :=
  match info with
  | none => (r, some "provider info cannot be nil")
  | some i =>
      if trimSpace i.Name = "" then (r, some "provider name cannot be empty")
      else if i.Factory.isNone then (r, some "provider factory cannot be nil")
      else if MaxProviders ≤ r.providers.length then
        (r, some ("registry is full (max " ++ toString MaxProviders ++ " providers)"))
      else if (alookup r.providers i.Name).isSome then
        (r, some ("provider " ++ i.Name ++ " already registered"))
      else
        registerAliases { r with providers := ainsert r.providers i.Name (storedInfo i) }
          i.Name i.Aliases

/-- Go `Registry.Unregister`. -/
def Unregister {ν π : Type} (r : Registry ν π) (name : String) :
    Registry ν π × Option String :=
  match alookup r.providers name with
  | none => (r, some ("provider " ++ name ++ " not found"))
  | some info =>
      ({ providers := aremove r.providers name,
         aliases := info.Aliases.foldl (fun as a => aremove as a) r.aliases }, none)

/-- Go `Registry.resolveProviderName`: alias lookup, falling back to the
name itself. -/
def resolveProviderName {ν π : Type} (r : Registry ν π) (name : String) : String :=
  match alookup r.aliases name with
  | some actual => actual
  | none => name

/-- Go `Registry.validateConfig`: first `RequiredConfig` key missing
from `config` yields the error. -/
def validateConfig {ν π : Type} (info : ProviderInfo ν π) (config : List (String × ν)) :
    Option String :=
  match info.RequiredConfig.find? (fun k => (alookup config k).isNone) with
  | some k => some ("required configuration key missing: " ++ k)
  | none => none

/-- Go `Registry.CreateProvider`.  A `none` factory would be a nil
dereference in Go; registered entries always carry one. -/
def CreateProvider {ν π : Type} (r : Registry ν π) (name : String)
    (config : List (String × ν)) : Except String π :=
  let providerName := resolveProviderName r name
  match alookup r.providers providerName with
  | none => .error ("provider " ++ name ++ " not found")
  | some info =>
      match validateConfig info config with
      | some e => .error ("configuration validation failed: " ++ e)
      | none =>
          match info.Factory with
          | none => .error "nil provider factory"
          | some f =>
              match f config with
              | .error e => .error ("failed to create provider " ++ name ++ ": " ++ e)
              | .ok p => .ok p

/-- Decides whether `Register` fails on one of the checks it performs
before inserting the provider name: nil info, blank name, nil factory,
full registry, or duplicate provider name. -/
def preInsertFail {ν π : Type} (r : Registry ν π) (info : Option (ProviderInfo ν π)) : Bool :=
  match info with
  | none => true
  | some i =>
      (trimSpace i.Name == "") || i.Factory.isNone ||
        decide (MaxProviders ≤ r.providers.length) || (alookup r.providers i.Name).isSome

end registry

/-- Go `client.DefaultProviderName`. -/
def DefaultProviderName : String := "default"

/-- Go `client.MaxEnvironmentKeys`. -/
def MaxEnvironmentKeys : Nat := 10000

/-- Go `client.MaxKeyLength`. -/
def MaxKeyLength : Nat := 256

/-- Go `client.MaxValueLength`. -/
def MaxValueLength : Nat := 4096

/-- Go `client.MergeStrategy` enum. -/
inductive MergeStrategy where
  | strategyOverride
  | strategyPreserve
  | strategyError
deriving DecidableEq, Repr

/-- Go `client.Provider` interface: name, `Load` (a `map[string]string`
or an error; the context argument is dropped) and `Validate` (`some`
is the non-nil error). -/
structure Provider where
  name : String
  load : String → Except String (List (String × String))
  validate : String → Option String

/-- Go `client.Client`: the `name -> Provider` instance map plus the
optional validator (`some` result is the non-nil validation error).
The exporter is not involved in `Load` and is dropped. -/
structure Client where
  providers : List (String × Provider)
  validator : Option (List (String × String) → Option String)

/-- Go `client.LoadOptions`. -/
structure LoadOptions where
  Sources : List String
  Schema : String
  MergeStrategy : MergeStrategy

/-- Go `client.SourceInfo`. -/
structure SourceInfo where
  Name : String
  Provider : String
  KeyCount : Int
deriving DecidableEq, Repr

/-- Go `client.Environment` (the `client` back-reference, used only by
`Export`, is dropped). -/
structure Environment where
  Data : List (String × String)
  Sources : List SourceInfo
deriving DecidableEq, Repr

/-- Go `Client.parseSource` splits with `strings.SplitN(source, ":", 2)`:
this helper returns the parts around the first `:` when one exists. -/
def splitNFirst : List Char → Option (List Char × List Char)
  | [] => none
  | c :: rest =>
      if c = ':' then some ([], rest)
      else match splitNFirst rest with
        | some (a, b) => some (c :: a, b)
        | none => none

/-- Go `Client.parseSource`. -/
def parseSource (source : String) : String × String :=
  match splitNFirst source.data with
  | some (a, b) => (String.mk a, String.mk b)
  | none => (DefaultProviderName, source)

/-- Go `Client.mergeConfiguration`: folds the source mapping into the
target per strategy, aborting with the Go conflict message under
`strategyError`. -/
def mergeConfiguration (target : List (String × String)) :
    List (String × String) → MergeStrategy → Except String (List (String × String))
  | [], _ => .ok target
  | (key, value) :: rest, strategy =>
      match alookup target key with
      | some existingValue =>
          match strategy with
          | .strategyError =>
              .error ("duplicate key found: " ++ key ++ " (existing: " ++ existingValue ++
                ", new: " ++ value ++ ")")
          | .strategyPreserve => mergeConfiguration target rest .strategyPreserve
          | .strategyOverride =>
              mergeConfiguration (ainsert target key value) rest .strategyOverride
      | none => mergeConfiguration (ainsert target key value) rest strategy

/-- Go `Client.loadFromSource` (state-passing: the mutated `env` is
returned on success, the error alone on failure — `Load` discards the
environment on any error, so the discarded partial mutation is not
observable). -/
def loadFromSource (c : Client) (source : String) (env : Environment)
    (strategy : MergeStrategy) : Except String Environment :=
  let ps := parseSource source
  match alookup c.providers ps.1 with
  | none => .error ("provider " ++ ps.1 ++ " not found")
  | some provider =>
      match provider.validate ps.2 with
      | some validateErr =>
          .error ("source validation failed for " ++ source ++ ": " ++ validateErr)
      | none =>
          match provider.load ps.2 with
          | .error e => .error ("failed to load from provider " ++ ps.1 ++ ": " ++ e)
          | .ok config =>
              let originalSize := env.Data.length
              match mergeConfiguration env.Data config strategy with
              | .error e => .error e
              | .ok newData =>
                  .ok { Data := newData,
                        Sources := env.Sources ++
                          [{ Name := source, Provider := ps.1,
                             KeyCount := (newData.length : Int) - (originalSize : Int) }] }

/-- The source loop of Go `Client.Load`, wrapping each per-source error
with the failing specifier. -/
def loadAll (c : Client) : List String → Environment → MergeStrategy →
    Except String Environment
  | [], env, _ => .ok env
  | source :: rest, env, strategy =>
      match loadFromSource c source env strategy with
      | .error e => .error ("failed to load from source " ++ source ++ ": " ++ e)
      | .ok env2 => loadAll c rest env2 strategy

/-- Go `Client.Load`, returning the `(*Environment, error)` pair: each
component is `none` exactly where the Go code returns `nil`. -/
def Load (c : Client) (options : LoadOptions) : Option Environment × Option String :=
  if options.Sources.isEmpty then (none, some "no sources specified")
  else
    match loadAll c options.Sources { Data := [], Sources := [] } options.MergeStrategy with
    | .error e => (none, some e)
    | .ok env =>
        match (match c.validator with
               | some v => v env.Data
               | none => none) with
        | some e => (none, some ("validation failed: " ++ e))
        | none =>
            if MaxEnvironmentKeys < env.Data.length then
              (none, some ("too many environment keys: " ++ toString env.Data.length ++
                " > " ++ toString MaxEnvironmentKeys))
            else (some env, none)

/-- Go `Environment.Get`: the `(value, exists)` pair, `""` when absent. -/
def Environment.Get (e : Environment) (key : String) : String × Bool :=
  match alookup e.Data key with
  | some value => (value, true)
  | none => ("", false)

/-- Go `Environment.Set`. -/
def Environment.Set (e : Environment) (key value : String) : Environment :=
  { e with Data := ainsert e.Data key value }

/-! ### Concrete fixtures used to instantiate the theorems -/

/-- A trivial factory over opaque config values and provider instances. -/
def uFactory : List (String × Unit) → Except String Unit := fun _ => .ok ()

/-- A provider info named `x` with alias `a`. -/
def infoX : registry.ProviderInfo Unit Unit :=
  { Name := "x", Aliases := ["a"], Factory := some uFactory, Priority := 1,
    Description := "", SupportedSources := [], RequiredConfig := [], OptionalConfig := [] }

/-- The registry obtained by registering `infoX` into a fresh registry. -/
def regX : registry.Registry Unit Unit :=
  (registry.Register (registry.NewRegistry Unit Unit) (some infoX)).1

/-- A provider info named `y` whose alias `x` collides with `infoX`. -/
def infoY : registry.ProviderInfo Unit Unit :=
  { Name := "y", Aliases := ["x"], Factory := some uFactory, Priority := 1,
    Description := "", SupportedSources := [], RequiredConfig := [], OptionalConfig := [] }

/-- A provider info whose name `a` equals the alias registered by `infoX`. -/
def infoA : registry.ProviderInfo Unit Unit :=
  { Name := "a", Aliases := [], Factory := some uFactory, Priority := 1,
    Description := "", SupportedSources := [], RequiredConfig := [], OptionalConfig := [] }

/-- A factory that always fails. -/
def boomFactory : List (String × Unit) → Except String Unit := fun _ => .error "boom"

/-- A provider info named `local` with alias `file` and a failing factory. -/
def infoLocal : registry.ProviderInfo Unit Unit :=
  { Name := "local", Aliases := ["file"], Factory := some boomFactory, Priority := 1,
    Description := "", SupportedSources := [], RequiredConfig := [], OptionalConfig := [] }

/-- The registry holding `infoLocal`. -/
def regLocal : registry.Registry Unit Unit :=
  (registry.Register (registry.NewRegistry Unit Unit) (some infoLocal)).1

/-- A client provider whose mapping is `{"K": "1"}`. -/
def pK1 : Provider :=
  { name := "a", load := fun _ => .ok [("K", "1")], validate := fun _ => none }

/-- A client provider whose mapping is `{"K": "2"}`. -/
def pK2 : Provider :=
  { name := "b", load := fun _ => .ok [("K", "2")], validate := fun _ => none }

/-- A client with providers `a` and `b` and no validator. -/
def cAB : Client := { providers := [("a", pK1), ("b", pK2)], validator := none }

/-- Load options for the two-source `K` scenario. -/
def oAB (st : MergeStrategy) : LoadOptions :=
  { Sources := ["a:x", "b:y"], Schema := "", MergeStrategy := st }

/-- The environment the override scenario produces. -/
def envOv : Environment :=
  { Data := [("K", "2")],
    Sources := [{ Name := "a:x", Provider := "a", KeyCount := 1 },
                { Name := "b:y", Provider := "b", KeyCount := 0 }] }

/-- The empty accumulator environment `Load` starts from. -/
def env0 : Environment := { Data := [], Sources := [] }

/-- The accumulator after the first `K` source. -/
def envA : Environment :=
  { Data := [("K", "1")], Sources := [{ Name := "a:x", Provider := "a", KeyCount := 1 }] }

/-- A key longer than `MaxKeyLength`. -/
def bigKey : String := String.mk (List.replicate 257 'K')

/-- A value longer than `MaxValueLength`. -/
def bigVal : String := String.mk (List.replicate 4097 'v')

theorem bigKey_long : MaxKeyLength < bigKey.length := by
  unfold bigKey MaxKeyLength
  rw [String.length_mk, List.length_replicate]
  decide

theorem bigVal_long : MaxValueLength < bigVal.length := by
  unfold bigVal MaxValueLength
  rw [String.length_mk, List.length_replicate]
  decide

/-- A provider returning an oversized key and value. -/
def pBig : Provider :=
  { name := "p", load := fun _ => .ok [(bigKey, bigVal)], validate := fun _ => none }

/-- A client holding only `pBig`. -/
def cBig : Client := { providers := [("p", pBig)], validator := none }

/-- The environment the oversized-entry scenario produces. -/
def envBig : Environment :=
  { Data := [(bigKey, bigVal)],
    Sources := [{ Name := "p:x", Provider := "p", KeyCount := 1 }] }

/-- The environment the preserve scenario produces. -/
def envPre : Environment :=
  { Data := [("K", "1")],
    Sources := [{ Name := "a:x", Provider := "a", KeyCount := 1 },
                { Name := "b:y", Provider := "b", KeyCount := 0 }] }

/-- Load options for the oversized-entry scenario. -/
def oBig : LoadOptions :=
  { Sources := ["p:x"], Schema := "", MergeStrategy := .strategyOverride }

/-! ### Supporting lemmas -/

theorem registerAliases_providers {ν π : Type} (n : String) :
    ∀ (l : List String) (st : registry.Registry ν π),
      ((registry.registerAliases st n l).1).providers = st.providers := by
  intro l
  induction l with
  | nil => intro st; rfl
  | cons a rest ih =>
      intro st
      by_cases hal : trimSpace a = ""
      · simpa [registry.registerAliases, hal] using ih st
      · by_cases hp : (alookup st.providers (trimSpace a)).isSome
        · simp [registry.registerAliases, hal, hp]
        · by_cases ha : (alookup st.aliases (trimSpace a)).isSome
          · simp [registry.registerAliases, hal, hp, ha]
          · simpa [registry.registerAliases, hal, hp, ha] using
              ih { st with aliases := ainsert st.aliases (trimSpace a) n }

theorem registerAliases_sound {ν π : Type} (n : String) :
    ∀ (l : List String) (st : registry.Registry ν π),
      ((registry.registerAliases st n l).2 = none) →
      ∀ a ∈ l, trimSpace a ≠ "" →
        alookup st.providers (trimSpace a) = none ∧
        alookup st.aliases (trimSpace a) = none := by
  intro l
  induction l with
  | nil => intro st _ a ha; simp at ha
  | cons b rest ih =>
      intro st hok a ha hne
      by_cases hbl : trimSpace b = ""
      · rw [List.mem_cons] at ha
        rcases ha with hab | ha
        · exact absurd (hab ▸ hbl) hne
        · have hok2 : ((registry.registerAliases st n rest).2 = none) := by
            simpa [registry.registerAliases, hbl] using hok
          exact ih st hok2 a ha hne
      · by_cases hp : (alookup st.providers (trimSpace b)).isSome
        · simp [registry.registerAliases, hbl, hp] at hok
        · by_cases hal : (alookup st.aliases (trimSpace b)).isSome
          · simp [registry.registerAliases, hbl, hp, hal] at hok
          · have hpn : alookup st.providers (trimSpace b) = none :=
              Option.not_isSome_iff_eq_none.mp hp
            have han : alookup st.aliases (trimSpace b) = none :=
              Option.not_isSome_iff_eq_none.mp hal
            rw [List.mem_cons] at ha
            rcases ha with hab | ha
            · subst hab; exact ⟨hpn, han⟩
            · have hok2 :
                  ((registry.registerAliases
                    { st with aliases := ainsert st.aliases (trimSpace b) n } n rest).2 = none) := by
                simpa [registry.registerAliases, hbl, hp, hal] using hok
              have h2 := ih _ hok2 a ha hne
              exact ⟨h2.1, alookup_ainsert_none h2.2⟩

theorem loadAll_cons_ok {c : Client} {s : String} {env env2 : Environment}
    {st : MergeStrategy} {rest : List String}
    (h : loadFromSource c s env st = .ok env2) :
    loadAll c (s :: rest) env st = loadAll c rest env2 st := by
  simp [loadAll, h]

theorem loadAll_cons_err {c : Client} {s : String} {env : Environment}
    {st : MergeStrategy} {rest : List String} {e : String}
    (h : loadFromSource c s env st = .error e) :
    loadAll c (s :: rest) env st =
      .error ("failed to load from source " ++ s ++ ": " ++ e) := by
  simp [loadAll, h]

theorem splitNFirst_append (post : List Char) :
    ∀ pre : List Char, ':' ∉ pre →
      splitNFirst (pre ++ ':' :: post) = some (pre, post) := by
  intro pre
  induction pre with
  | nil => intro _; simp [splitNFirst]
  | cons c cs ih =>
      intro h
      have hc : ¬ c = ':' := fun hc => h (hc ▸ List.mem_cons_self c cs)
      have hcs : ':' ∉ cs := fun hm => h (List.mem_cons_of_mem c hm)
      simp [splitNFirst, hc, ih hcs]

/-! ### Claim theorems -/

/-- C1 (amended): `Register` is atomic only for the checks performed
before the provider name is inserted (nil info, blank name, nil
factory, full registry, duplicate name) — those return an error with
the registry unchanged.  Once these checks pass, the provider name is
inserted and remains in the provider map even when a later alias
collision makes `Register` return an error. -/
theorem register_error_state {ν π : Type} (r : registry.Registry ν π)
    (info : Option (registry.ProviderInfo ν π)) :
    (registry.preInsertFail r info = true →
      (registry.Register r info).1 = r ∧ ((registry.Register r info).2).isSome = true)
    ∧ (registry.preInsertFail r info = false →
      ∀ i, info = some i →
        (alookup ((registry.Register r info).1).providers i.Name).isSome = true) := by
  cases info with
  | none =>
      refine ⟨fun _ => ⟨rfl, rfl⟩, fun h => ?_⟩
      simp [registry.preInsertFail] at h
  | some i =>
      constructor
      · intro h
        by_cases h1 : trimSpace i.Name = ""
        · simp [registry.Register, h1]
        · by_cases h2 : i.Factory.isNone
          · simp [registry.Register, h1, h2]
          · by_cases h3 : registry.MaxProviders ≤ r.providers.length
            · simp [registry.Register, h1, h2, h3]
            · by_cases h4 : (alookup r.providers i.Name).isSome
              · simp [registry.Register, h1, h2, h3, h4]
              · simp [registry.preInsertFail, h1, h2, h3, h4] at h
      · intro h i0 hi0
        have hii : i = i0 := by injection hi0
        subst hii
        by_cases h1 : trimSpace i.Name = ""
        · simp [registry.preInsertFail, h1] at h
        · by_cases h2 : i.Factory.isNone
          · simp [registry.preInsertFail, h1, h2] at h
          · by_cases h3 : registry.MaxProviders ≤ r.providers.length
            · simp [registry.preInsertFail, h1, h2, h3] at h
            · by_cases h4 : (alookup r.providers i.Name).isSome
              · simp [registry.preInsertFail, h1, h2, h3, h4] at h
              · have hreg : ((registry.Register r (some i)).1).providers =
                    ainsert r.providers i.Name (registry.storedInfo i) := by
                  simp [registry.Register, h1, h2, h3, h4, registerAliases_providers]
                rw [hreg]
                simp [alookup_ainsert]

/-- C1 witness: for a duplicate name the registry is untouched and an
error is returned; past the pre-insertion checks the colliding-alias
registration leaves the new name registered. -/
theorem register_error_state_witness :
    ((registry.Register regX (some infoX)).1 = regX ∧
      ((registry.Register regX (some infoX)).2).isSome = true) ∧
    (alookup ((registry.Register regX (some infoY)).1).providers "y").isSome = true :=
  ⟨(register_error_state regX (some infoX)).1 (by rfl),
   (register_error_state regX (some infoY)).2 (by rfl) infoY rfl⟩

/-- C1 counterexample: registering `infoY` (alias `x` collides with the
provider `x`) returns an error, yet the provider map has gained the
name `y` — the partial mutation is committed. -/
theorem register_not_atomic_cex :
    ((registry.Register regX (some infoY)).2).isSome = true ∧
    alookup regX.providers "y" = none ∧
    (alookup ((registry.Register regX (some infoY)).1).providers "y").isSome = true :=
  ⟨rfl, rfl, rfl⟩

/-- C2 (amended): a successful `Register` guarantees the provider name
was not an existing provider name and every trimmed non-blank alias
collided with neither an existing (or the new) provider name nor an
existing alias; but `Register` does not check the new *name* against
existing aliases, so the two keyspaces can lose disjointness. -/
theorem register_collision_checks {ν π : Type} (r : registry.Registry ν π)
    (i : registry.ProviderInfo ν π)
    (hok : (registry.Register r (some i)).2 = none) :
    alookup r.providers i.Name = none ∧
    ∀ a ∈ i.Aliases, trimSpace a ≠ "" →
      trimSpace a ≠ i.Name ∧
      alookup r.providers (trimSpace a) = none ∧
      alookup r.aliases (trimSpace a) = none := by
  by_cases h1 : trimSpace i.Name = ""
  · simp [registry.Register, h1] at hok
  by_cases h2 : i.Factory.isNone
  · simp [registry.Register, h1, h2] at hok
  by_cases h3 : registry.MaxProviders ≤ r.providers.length
  · simp [registry.Register, h1, h2, h3] at hok
  by_cases h4 : (alookup r.providers i.Name).isSome
  · simp [registry.Register, h1, h2, h3, h4] at hok
  refine ⟨Option.not_isSome_iff_eq_none.mp h4, ?_⟩
  intro a ha hne
  have hok2 : ((registry.registerAliases
      { r with providers := ainsert r.providers i.Name (registry.storedInfo i) }
      i.Name i.Aliases).2 = none) := by
    simpa [registry.Register, h1, h2, h3, h4] using hok
  have h := registerAliases_sound i.Name i.Aliases _ hok2 a ha hne
  have hp := h.1
  rw [alookup_ainsert] at hp
  by_cases heq : i.Name = trimSpace a
  · simp [heq] at hp
  · exact ⟨fun hc => heq hc.symm, by simpa [heq] using hp, h.2⟩

/-- C2 witness: registering `infoX` into a fresh registry succeeds,
so its name and alias were free. -/
theorem register_collision_checks_witness :
    alookup (registry.NewRegistry Unit Unit).providers infoX.Name = none ∧
    alookup (registry.NewRegistry Unit Unit).providers (trimSpace "a") = none ∧
    alookup (registry.NewRegistry Unit Unit).aliases (trimSpace "a") = none := by
  have h := register_collision_checks (registry.NewRegistry Unit Unit) infoX rfl
  have h2 := h.2 "a" (by simp [infoX]) (by decide)
  exact ⟨h.1, h2.2.1, h2.2.2⟩

/-- C2 counterexample: with alias `a -> x` registered, registering a
provider *named* `a` succeeds, leaving `a` simultaneously a provider
name and an alias — the keyspaces are not disjoint and the collision
was not rejected. -/
theorem names_aliases_disjoint_cex :
    (registry.Register regX (some infoA)).2 = none ∧
    (alookup regX.aliases "a").isSome = true ∧
    (alookup ((registry.Register regX (some infoA)).1).providers "a").isSome = true ∧
    (alookup ((registry.Register regX (some infoA)).1).aliases "a").isSome = true :=
  ⟨rfl, rfl, rfl, rfl⟩

/-- C9 (amended): with alias `a -> n` and canonical provider `n`
registered, `CreateProvider` via the alias succeeds exactly when the
canonical call succeeds and with the same provider instance, and fails
exactly when it fails (the factory-failure error messages differ only
in the caller-supplied name they cite); an unresolved name is an
error, as is a missing `RequiredConfig` key. -/
theorem createProvider_alias_canonical {ν π : Type} (r : registry.Registry ν π)
    (a n : String) (cfg : List (String × ν)) (info : registry.ProviderInfo ν π)
    (ha : alookup r.aliases a = some n)
    (hn : alookup r.aliases n = none)
    (hp : alookup r.providers n = some info) :
    (∀ p : π, registry.CreateProvider r a cfg = .ok p ↔
      registry.CreateProvider r n cfg = .ok p)
    ∧ ((∃ e, registry.CreateProvider r a cfg = .error e) ↔
        (∃ e, registry.CreateProvider r n cfg = .error e))
    ∧ (∀ (nm : String) (cfg2 : List (String × ν)),
        alookup r.providers (registry.resolveProviderName r nm) = none →
        registry.CreateProvider r nm cfg2 = .error ("provider " ++ nm ++ " not found"))
    ∧ (∀ k ∈ info.RequiredConfig, alookup cfg k = none →
        (∃ e, registry.CreateProvider r a cfg = .error e) ∧
        (∃ e, registry.CreateProvider r n cfg = .error e)) := by
  have hra : registry.resolveProviderName r a = n := by
    simp [registry.resolveProviderName, ha]
  have hrn : registry.resolveProviderName r n = n := by
    simp [registry.resolveProviderName, hn]
  have hmain : ∀ (nm : String), registry.resolveProviderName r nm = n →
      registry.CreateProvider r nm cfg =
        (match registry.validateConfig info cfg with
         | some e => .error ("configuration validation failed: " ++ e)
         | none =>
            match info.Factory with
            | none => .error "nil provider factory"
            | some f =>
                match f cfg with
                | .error e => .error ("failed to create provider " ++ nm ++ ": " ++ e)
                | .ok p => .ok p) := by
    intro nm hr
    simp [registry.CreateProvider, hr, hp]
  constructor
  · intro p
    rw [hmain a hra, hmain n hrn]
    cases hv : registry.validateConfig info cfg with
    | some e => simp [hv]
    | none =>
        cases hf : info.Factory with
        | none => simp [hv, hf]
        | some f =>
            cases hfc : f cfg with
            | error e => simp [hv, hf, hfc]
            | ok p0 => simp [hv, hf, hfc]
  constructor
  · rw [hmain a hra, hmain n hrn]
    cases hv : registry.validateConfig info cfg with
    | some e => simp [hv]
    | none =>
        cases hf : info.Factory with
        | none => simp [hv, hf]
        | some f =>
            cases hfc : f cfg with
            | error e => simp [hv, hf, hfc]
            | ok p0 => simp [hv, hf, hfc]
  constructor
  · intro nm cfg2 hmiss
    simp [registry.CreateProvider, hmiss]
  · intro k hk hmiss
    have hfind : ((info.RequiredConfig.find? (fun k => (alookup cfg k).isNone)).isSome) := by
      rw [List.find?_isSome]
      exact ⟨k, hk, by simp [hmiss]⟩
    obtain ⟨k0, hk0⟩ := Option.isSome_iff_exists.mp hfind
    have hv : registry.validateConfig info cfg =
        some ("required configuration key missing: " ++ k0) := by
      simp [registry.validateConfig, hk0]
    constructor
    · exact ⟨_, by rw [hmain a hra, hv]⟩
    · exact ⟨_, by rw [hmain n hrn, hv]⟩

/-- C9 witness: for the registered `local` provider with alias `file`
and an always-failing factory, the alias call and the canonical call
succeed and fail together. -/
theorem createProvider_alias_canonical_witness :
    (registry.CreateProvider regLocal "file" ([] : List (String × Unit)) = .ok () ↔
      registry.CreateProvider regLocal "local" ([] : List (String × Unit)) = .ok ()) ∧
    ((∃ e, registry.CreateProvider regLocal "file" ([] : List (String × Unit)) = .error e) ↔
      (∃ e, registry.CreateProvider regLocal "local" ([] : List (String × Unit)) = .error e)) := by
  have h := createProvider_alias_canonical regLocal "file" "local" [] infoLocal rfl rfl rfl
  exact ⟨h.1 (), h.2.1⟩

/-- C9 counterexample: when the factory itself fails, the alias call
and the canonical call return *different* error values (each cites
the name it was invoked with), so they do not produce literally the
same result. -/
theorem createProvider_alias_result_cex :
    registry.CreateProvider regLocal "file" ([] : List (String × Unit)) =
      .error "failed to create provider file: boom" ∧
    registry.CreateProvider regLocal "local" ([] : List (String × Unit)) =
      .error "failed to create provider local: boom" ∧
    ("failed to create provider file: boom" : String) ≠
      "failed to create provider local: boom" :=
  ⟨rfl, rfl, by decide⟩

theorem splitNFirst_none : ∀ cs : List Char, ':' ∉ cs → splitNFirst cs = none := by
  intro cs
  induction cs with
  | nil => intro _; rfl
  | cons c rest ih =>
      intro h
      have hc : ¬ c = ':' := fun hc => h (hc ▸ List.mem_cons_self c rest)
      have hrest : ':' ∉ rest := fun hm => h (List.mem_cons_of_mem c hm)
      simp [splitNFirst, hc, ih hrest]

/-- C8: `parseSource` splits a specifier at its first `:` into provider
name and path; a specifier with no `:` gets the reserved provider name
`"default"` and the whole string as the path. -/
theorem parseSource_first_colon :
    (∀ pre post : List Char, ':' ∉ pre →
      parseSource (String.mk (pre ++ ':' :: post)) = (String.mk pre, String.mk post))
    ∧ (∀ s : String, ':' ∉ s.data → parseSource s = (DefaultProviderName, s)) := by
  constructor
  · intro pre post h
    simp [parseSource, splitNFirst_append post pre h]
  · intro s h
    simp [parseSource, splitNFirst_none s.data h]

/-- C8 witness: `"local:.env"` splits at the colon; `".env"` gets the
default provider. -/
theorem parseSource_first_colon_witness :
    parseSource "local:.env" = ("local", ".env") ∧
    parseSource ".env" = (DefaultProviderName, ".env") :=
  ⟨parseSource_first_colon.1 "local".data ".env".data (by decide),
   parseSource_first_colon.2 ".env" (by decide)⟩

/-- C6: `Load` returns exactly one of environment and error — every
failing path yields `(nil, error)` and the success path `(env, nil)`;
a non-nil environment is never paired with an error. -/
theorem load_no_partial_env (c : Client) (o : LoadOptions) :
    ((Load c o).1 = none ∧ ((Load c o).2).isSome = true)
    ∨ (((Load c o).1).isSome = true ∧ (Load c o).2 = none) := by
  unfold Load
  split
  · exact Or.inl ⟨rfl, rfl⟩
  · split
    · exact Or.inl ⟨rfl, rfl⟩
    · split
      · exact Or.inl ⟨rfl, rfl⟩
      · split
        · exact Or.inl ⟨rfl, rfl⟩
        · exact Or.inr ⟨rfl, rfl⟩

/-- C3 (amended): every successful `Load` satisfies the key-count
ceiling `MaxEnvironmentKeys`; the key-length and value-length bounds
are not checked by `Load` at all. -/
theorem load_key_count_bound (c : Client) (o : LoadOptions) (env : Environment)
    (h : (Load c o).1 = some env) : env.Data.length ≤ MaxEnvironmentKeys := by
  unfold Load at h
  split at h
  · simp at h
  · split at h
    · simp at h
    · split at h
      · simp at h
      · split at h
        · simp at h
        · rename_i env2 hval hlt
          simp only [Option.some.injEq] at h
          subst h
          exact Nat.le_of_not_lt hlt

/-- C3 witness: the two-source override scenario loads successfully and
its data size is within the ceiling. -/
theorem load_key_count_bound_witness : envOv.Data.length ≤ MaxEnvironmentKeys :=
  load_key_count_bound cAB (oAB .strategyOverride) envOv rfl

/-- C3 counterexample: a provider may hand `Load` a key of length 257
and a value of length 4097; `Load` succeeds anyway, so the
`MaxKeyLength`/`MaxValueLength` bounds are not enforced. -/
theorem load_ignores_length_bounds_cex :
    Load cBig oBig = (some envBig, none) ∧
    MaxKeyLength < bigKey.length ∧ MaxValueLength < bigVal.length :=
  ⟨rfl, bigKey_long, bigVal_long⟩

/-- C4: with sources `A={"K":"1"}` then `B={"K":"2"}`, Override yields
`K="2"` and Preserve yields `K="1"` without error; in general, for a
key already present, Override replaces the value and Preserve keeps
the existing one. -/
theorem merge_override_preserve :
    Load cAB (oAB .strategyOverride) = (some envOv, none)
    ∧ Load cAB (oAB .strategyPreserve) = (some envPre, none)
    ∧ (∀ (t : List (String × String)) (k v ex : String), alookup t k = some ex →
        mergeConfiguration t [(k, v)] .strategyOverride = .ok (ainsert t k v))
    ∧ (∀ (t : List (String × String)) (k v ex : String), alookup t k = some ex →
        mergeConfiguration t [(k, v)] .strategyPreserve = .ok t) := by
  refine ⟨rfl, rfl, ?_, ?_⟩
  · intro t k v ex h
    simp [mergeConfiguration, h]
  · intro t k v ex h
    simp [mergeConfiguration, h]

/-- C4 witness: merging `{"K":"2"}` into `{"K":"1"}` overrides to `"2"`
or preserves `"1"`. -/
theorem merge_override_preserve_witness :
    mergeConfiguration [("K", "1")] [("K", "2")] .strategyOverride =
      .ok (ainsert [("K", "1")] "K" "2") ∧
    mergeConfiguration [("K", "1")] [("K", "2")] .strategyPreserve = .ok [("K", "1")] :=
  ⟨merge_override_preserve.2.2.1 [("K", "1")] "K" "2" "1" rfl,
   merge_override_preserve.2.2.2 [("K", "1")] "K" "2" "1" rfl⟩

/-- C5: under the Error strategy the duplicate key `K` aborts `Load`
with a conflict error naming the key and both values, no environment
is produced, and any further sources are never processed (the result
is the same whatever sources follow). -/
theorem merge_error_aborts (rest : List String) :
    Load cAB { Sources := "a:x" :: "b:y" :: rest, Schema := "",
               MergeStrategy := .strategyError } =
      (none,
       some "failed to load from source b:y: duplicate key found: K (existing: 1, new: 2)") := by
  have h1 : loadFromSource cAB "a:x" { Data := [], Sources := [] } .strategyError =
      .ok envA := rfl
  have h2 : loadFromSource cAB "b:y" envA .strategyError =
      .error "duplicate key found: K (existing: 1, new: 2)" := rfl
  have hall : loadAll cAB ("a:x" :: "b:y" :: rest) { Data := [], Sources := [] }
      .strategyError =
      .error "failed to load from source b:y: duplicate key found: K (existing: 1, new: 2)" := by
    rw [loadAll_cons_ok h1, loadAll_cons_err h2]
    rfl
  simp [Load, hall]

/-- C7: the recorded `SourceInfo.KeyCount` is the net growth of the
accumulator (size after minus size before), not the number of keys the
source supplied; in the override scenario the second source (one key,
value changed) is recorded with `KeyCount = 0`. -/
theorem keyCount_net_growth :
    (∀ (c : Client) (s : String) (env : Environment) (st : MergeStrategy)
      (env2 : Environment),
      loadFromSource c s env st = .ok env2 →
      env2.Sources = env.Sources ++
        [{ Name := s, Provider := (parseSource s).1,
           KeyCount := (env2.Data.length : Int) - (env.Data.length : Int) }])
    ∧ Load cAB (oAB .strategyOverride) = (some envOv, none) := by
  refine ⟨?_, rfl⟩
  intro c s env st env2 h
  simp only [loadFromSource] at h
  split at h
  · simp at h
  · split at h
    · simp at h
    · split at h
      · simp at h
      · split at h
        · simp at h
        · simp only [Except.ok.injEq] at h
          subst h
          rfl

/-- C7 witness: the first `K` source grows the accumulator from 0 to 1
keys and is recorded with that net growth. -/
theorem keyCount_net_growth_witness :
    envA.Sources = env0.Sources ++
      [{ Name := "a:x", Provider := (parseSource "a:x").1,
         KeyCount := (envA.Data.length : Int) - (env0.Data.length : Int) }] :=
  keyCount_net_growth.1 cAB "a:x" env0 .strategyOverride envA rfl

/-- C10: `Set` makes `Get` return the new value, leaves every other
key and the `Sources` list unchanged, and performs no bounds checks:
setting an over-long key on a successfully loaded environment
succeeds, putting `Data` beyond the limits `Load` enforces. -/
theorem env_set_get_frame :
    (∀ (e : Environment) (k v : String),
      Environment.Get (Environment.Set e k v) k = (v, true))
    ∧ (∀ (e : Environment) (k v k2 : String), k2 ≠ k →
      Environment.Get (Environment.Set e k v) k2 = Environment.Get e k2)
    ∧ (∀ (e : Environment) (k v : String), (Environment.Set e k v).Sources = e.Sources)
    ∧ ((Load cAB (oAB .strategyOverride)).1 = some envOv ∧
       (Environment.Set envOv bigKey "9").Data = [("K", "2"), (bigKey, "9")] ∧
       MaxKeyLength < bigKey.length ∧
       (Environment.Set envOv bigKey "9").Sources = envOv.Sources) := by
  refine ⟨?_, ?_, ?_, rfl, rfl, bigKey_long, rfl⟩
  · intro e k v
    simp [Environment.Get, Environment.Set, alookup_ainsert]
  · intro e k v k2 h
    have hne : ¬ k = k2 := fun hc => h hc.symm
    simp [Environment.Get, Environment.Set, alookup_ainsert, hne]
  · intro e k v
    rfl

/-- C10 witness: setting a fresh key `X` does not disturb `K`. -/
theorem env_set_get_frame_witness :
    Environment.Get (Environment.Set envOv "X" "1") "K" = Environment.Get envOv "K" :=
  env_set_get_frame.2.1 envOv "X" "1" "K" (by decide)
